import Mathlib

/-!
Verification of the opm-autodiff nonlinear-solution core.

Shallow embedding, over `ℚ`, of the two source files of this repository:

* `NewtonSolver.hpp` / `NewtonSolver_impl.hpp` (the generic Newton driver,
  oscillation/stagnation detection and relaxation), and
* `ImpesTPFAAD.hpp` (the pressure-dependent property adapter and the
  TPFA/IMPES assembler).

Machine doubles are modelled as rationals, Eigen dense vectors (`ADB::V`)
as `List ℚ` or `Fin n → ℚ`, and sparse matrices as total functions
`Fin n → Fin m → ℚ`.  The physical model consumed by the Newton driver is
a record of abstract operations over an abstract state type, mirroring the
capability set `PhysicalModel` must provide.  Call counters (`nSolves`,
`nAssembles`, ...) instrument the embedding: each is incremented exactly at
the point the corresponding model operation is invoked in the C++ source.

The AD block algebra itself (`AutoDiffBlock.hpp`, `AutoDiffHelpers.hpp`) is
not among the analyzable sources; its operations are modelled from the
specification's description of the algebra (constant / variable / function
construction, elementwise arithmetic with product and quotient rules,
row gather, diagonal promotion).  Definitions taken from the spec rather
than from source carry a comment saying so.
-/

/- Rational arithmetic is sealed `irreducible` upstream; unseal it so that
concrete instances of the definitions below evaluate by `decide`. -/
unseal Rat.add Rat.sub Rat.mul Rat.inv

/-! ## Newton driver (from `NewtonSolver.hpp` / `NewtonSolver_impl.hpp`) -/

/-- The Newton relaxation scheme type (`enum RelaxType { DAMPEN, SOR }`). -/
inductive RelaxType where
  | DAMPEN : RelaxType
  | SOR : RelaxType
deriving DecidableEq, Repr

/-- Solver parameters controlling the nonlinear Newton process
(`NewtonSolver::SolverParameters`).  The iteration bounds are `int` in the
source and count iterations, so they are embedded as `ℕ`. -/
structure SolverParameters where
  relax_type : RelaxType
  relax_max : ℚ
  relax_increment : ℚ
  relax_rel_tol : ℚ
  max_iter : ℕ
  min_iter : ℕ
deriving DecidableEq, Repr

/-- `SolverParameters::reset()`: the default parameter values. -/
def SolverParameters.reset : SolverParameters :=
  { relax_type := RelaxType.DAMPEN
  , relax_max := 1/2
  , relax_increment := 1/10
  , relax_rel_tol := 1/5
  , max_iter := 15
  , min_iter := 1 }

/-- `NewtonSolver::detectNewtonOscillations`.  Straight translation of the
source: inactive (`(false, false)`) for `it < 2`; otherwise each phase `p`
contributes to the `oscillatePhase` count when
`|(F0[p]-F2[p])/F0[p]| < tol` and `tol < |(F0[p]-F1[p])/F0[p]|`, the step
oscillates when that count exceeds one, and stagnation holds when no phase
has `|(F1[p]-F2[p])/F2[p]| > 1.0e-3`. -/
def detectNewtonOscillations (numPhases : ℕ) (residual_history : List (List ℚ))
    (it : ℕ) (relaxRelTol : ℚ) : Bool × Bool :=
  if it < 2 then (false, false)
  else
    let F0 := residual_history.getD it []
    let F1 := residual_history.getD (it - 1) []
    let F2 := residual_history.getD (it - 2) []
    let oscillatePhase := (List.range numPhases).countP (fun p =>
      decide (|(F0.getD p 0 - F2.getD p 0) / F0.getD p 0| < relaxRelTol) &&
      decide (relaxRelTol < |(F0.getD p 0 - F1.getD p 0) / F0.getD p 0|))
    let stagnate := (List.range numPhases).all (fun p =>
      !decide (|(F1.getD p 0 - F2.getD p 0) / F2.getD p 0| > 1/1000))
    (decide (oscillatePhase > 1), stagnate)

/-- `NewtonSolver::stabilizeNewton`.  `dxOld` is assigned the incoming `dx`
before the relaxation switch; the pair returned is `(dx', dxOld')`.  The
`default:` arm of the C++ switch is unreachable: the closed enum has exactly
the two constructors. -/
def stabilizeNewton (dx dxOld : List ℚ) (omega : ℚ) (relax_type : RelaxType) :
    List ℚ × List ℚ :=
  let tempDxOld := dxOld
  match relax_type with
  | RelaxType.DAMPEN =>
      if omega = 1 then (dx, dx)
      else (dx.map (fun a => a * omega), dx)
  | RelaxType.SOR =>
      if omega = 1 then (dx, dx)
      else (dx.zipWith (fun a b => a * omega + (1 - omega) * b) tempDxOld, dx)

/-- The capability set a `PhysicalModel` must expose to the Newton driver,
over an abstract model-state type `σ` (mirroring the template parameter).
`solveJacobianSystem` may mutate the model (it records the linear iteration
count of the last solve), so it returns the new state with the update. -/
structure Model (σ : Type) where
  prepareStep : ℚ → σ → σ
  assemble : Bool → σ → σ
  computeResidualNorms : σ → List ℚ
  getConvergence : σ → ℚ → ℕ → Bool
  sizeNonLinear : σ → ℕ
  solveJacobianSystem : σ → σ × List ℚ
  linearIterationsLastSolve : σ → ℕ
  updateState : List ℚ → σ → σ
  afterStep : ℚ → σ → σ
  numPhases : σ → ℕ

/-- The mutable locals of `NewtonSolver::step`'s main loop, plus
instrumentation counters (`nSolves`, `nUpdates`, `nAssembles`) counting the
calls issued to the model so far. -/
structure LoopSt (σ : Type) where
  mstate : σ
  history : List (List ℚ)
  omega : ℚ
  iteration : ℕ
  converged : Bool
  dxOld : List ℚ
  linearIterations : ℕ
  nSolves : ℕ
  nUpdates : ℕ
  nAssembles : ℕ

/-- The loop guard of `NewtonSolver::step`:
`(!converged && (iteration < maxIter())) || (minIter() > iteration)`. -/
def newtonGuard (p : SolverParameters) (s : LoopSt σ) : Bool :=
  (!s.converged && decide (s.iteration < p.max_iter)) ||
    decide (p.min_iter > s.iteration)

/-- One body execution of the main Newton loop: linear solve, accumulate
linear iterations, oscillation detection, relaxation-factor adjustment,
stabilization, state update, reassembly, history append, iteration
increment, convergence recheck. -/
def newtonLoopBody (m : Model σ) (p : SolverParameters) (dt : ℚ) (s : LoopSt σ) :
    LoopSt σ :=
  let sdx := m.solveJacobianSystem s.mstate
  let ms := sdx.1
  let dx := sdx.2
  let linIts := s.linearIterations + m.linearIterationsLastSolve ms
  let osc := detectNewtonOscillations (m.numPhases ms) s.history s.iteration p.relax_rel_tol
  let omega := if osc.1 then max (s.omega - p.relax_increment) p.relax_max else s.omega
  let st := stabilizeNewton dx s.dxOld omega p.relax_type
  let ms2 := m.updateState st.1 ms
  let ms3 := m.assemble false ms2
  let history := s.history ++ [m.computeResidualNorms ms3]
  let iteration := s.iteration + 1
  { mstate := ms3
  , history := history
  , omega := omega
  , iteration := iteration
  , converged := m.getConvergence ms3 dt iteration
  , dxOld := st.2
  , linearIterations := linIts
  , nSolves := s.nSolves + 1
  , nUpdates := s.nUpdates + 1
  , nAssembles := s.nAssembles + 1 }

/-- The main Newton loop, fuel-indexed.  The fuel passed by `step` is
`max max_iter min_iter`, an upper bound on the number of loop entries: the
guard requires `iteration < max_iter ∨ iteration < min_iter` and each body
execution increments `iteration`, so the guard is already false whenever the
fuel would run out. -/
def newtonIterate (m : Model σ) (p : SolverParameters) (dt : ℚ) :
    ℕ → LoopSt σ → LoopSt σ
  | 0, s => s
  | fuel + 1, s =>
      if newtonGuard p s then newtonIterate m p dt fuel (newtonLoopBody m p dt s)
      else s

/-- The persistent counters of a `NewtonSolver` instance
(`newtonIterations_`, `linearIterations_`, `newtonIterationsLast_`,
`linearIterationsLast_`). -/
structure NewtonSolverState where
  newtonIterations : ℕ
  linearIterations : ℕ
  newtonIterationsLast : ℕ
  linearIterationsLast : ℕ
deriving DecidableEq, Repr

/-- Everything `NewtonSolver::step` returns or observably mutates: its `int`
return value, the solver's counters, the final model state, and the
instrumentation (exit iteration count, numbers of linear solves, state
updates, residual assemblies and `afterStep` invocations). -/
structure StepResult (σ : Type) where
  retval : ℤ
  solver : NewtonSolverState
  mstate : σ
  exitIteration : ℕ
  nSolves : ℕ
  nUpdates : ℕ
  nAssembles : ℕ
  nAfterStep : ℕ

/-- The pre-loop part of `NewtonSolver::step`: `prepareStep`, initial
`assemble(..., true)`, initial residual-norm snapshot, `omega = 1.0`,
`iteration = 0`, initial convergence check, `dxOld = V::Zero(...)`. -/
def stepInit (m : Model σ) (dt : ℚ) (s0 : σ) : LoopSt σ :=
  let ms := m.prepareStep dt s0
  let ms1 := m.assemble true ms
  { mstate := ms1
  , history := [m.computeResidualNorms ms1]
  , omega := 1
  , iteration := 0
  , converged := m.getConvergence ms1 dt 0
  , dxOld := List.replicate (m.sizeNonLinear ms1) 0
  , linearIterations := 0
  , nSolves := 0
  , nUpdates := 0
  , nAssembles := 1 }

/-- The post-loop part of `NewtonSolver::step`: on non-convergence return
`-1` touching neither the counters nor the model; on success accumulate the
cumulative and last-step counters, run `afterStep`, and return the linear
iteration count. -/
def stepFinal (sol : NewtonSolverState) (m : Model σ) (dt : ℚ) (fin : LoopSt σ) :
    StepResult σ :=
  if fin.converged = false then
    { retval := -1
    , solver := sol
    , mstate := fin.mstate
    , exitIteration := fin.iteration
    , nSolves := fin.nSolves
    , nUpdates := fin.nUpdates
    , nAssembles := fin.nAssembles
    , nAfterStep := 0 }
  else
    { retval := (fin.linearIterations : ℤ)
    , solver :=
      { newtonIterations := sol.newtonIterations + fin.iteration
      , linearIterations := sol.linearIterations + fin.linearIterations
      , newtonIterationsLast := fin.iteration
      , linearIterationsLast := fin.linearIterations }
    , mstate := m.afterStep dt fin.mstate
    , exitIteration := fin.iteration
    , nSolves := fin.nSolves
    , nUpdates := fin.nUpdates
    , nAssembles := fin.nAssembles
    , nAfterStep := 1 }

/-- `NewtonSolver::step`. -/
def NewtonSolver.step (p : SolverParameters) (sol : NewtonSolverState)
    (m : Model σ) (dt : ℚ) (s0 : σ) : StepResult σ :=
  stepFinal sol m dt
    (newtonIterate m p dt (max p.max_iter p.min_iter) (stepInit m dt s0))

/-- The per-phase oscillation criterion in the words of the spec: phase `p`
is flagged oscillating exactly when `d1 = |F0−F2|/F0 < tol` and
`tol < d2 = |F0−F1|/F0`. -/
def oscFlagSpec (F0 F1 F2 : List ℚ) (tol : ℚ) (p : ℕ) : Bool :=
  decide (|F0.getD p 0 - F2.getD p 0| / F0.getD p 0 < tol) &&
    decide (tol < |F0.getD p 0 - F1.getD p 0| / F0.getD p 0)

/-! ## AD block algebra (two-block specialization)

`ImpesTPFAAD` packs exactly two unknown groups — cell pressures and well
bottom-hole pressures — into one joint block pattern, so the algebra is
embedded with the pattern fixed in the types: an AD quantity over `n`
entities carries a value vector and one Jacobian block against each of the
`nc` cell pressures and the `nw` well BHPs.

Modelled from the spec: `AutoDiffBlock.hpp` / `AutoDiffHelpers.hpp` are not
among the analyzable sources; the operations below follow §3/§4.1 of the
specification (constant/variable/function construction; elementwise
arithmetic combining Jacobians by the ordinary, product and quotient rules
block-by-block; row subset/gather; diagonal promotion of a vector). -/

/-- An AD quantity over `n` entities with the two-block (cell-pressure,
well-BHP) Jacobian pattern. -/
structure ADB (n nc nw : ℕ) where
  val : Fin n → ℚ
  jacP : Fin n → Fin nc → ℚ
  jacW : Fin n → Fin nw → ℚ

/-- Modelled from the spec: `constant` construction — all Jacobian blocks
are zero. -/
def ADB.constant (v : Fin n → ℚ) : ADB n nc nw :=
  ⟨v, fun _ _ => 0, fun _ _ => 0⟩

/-- Modelled from the spec: the cell-pressure entry of `ADB::variables`:
identity Jacobian on its own (first) block, zero on the well block. -/
def ADB.variableP (v : Fin nc → ℚ) : ADB nc nc nw :=
  ⟨v, fun i j => if i = j then 1 else 0, fun _ _ => 0⟩

/-- Modelled from the spec: the well-BHP entry of `ADB::variables`:
identity Jacobian on its own (second) block, zero on the pressure block. -/
def ADB.variableW (v : Fin nw → ℚ) : ADB nw nc nw :=
  ⟨v, fun _ _ => 0, fun i j => if i = j then 1 else 0⟩

/-- Modelled from the spec: `ADB::function` — value and Jacobian blocks
supplied explicitly (the "inject external derivative" construction). -/
def ADB.function (v : Fin n → ℚ) (jp : Fin n → Fin nc → ℚ)
    (jw : Fin n → Fin nw → ℚ) : ADB n nc nw :=
  ⟨v, jp, jw⟩

/-- Modelled from the spec: elementwise addition. -/
def ADB.add (a b : ADB n nc nw) : ADB n nc nw :=
  ⟨fun i => a.val i + b.val i
  , fun i j => a.jacP i j + b.jacP i j
  , fun i w => a.jacW i w + b.jacW i w⟩

/-- Modelled from the spec: elementwise subtraction. -/
def ADB.sub (a b : ADB n nc nw) : ADB n nc nw :=
  ⟨fun i => a.val i - b.val i
  , fun i j => a.jacP i j - b.jacP i j
  , fun i w => a.jacW i w - b.jacW i w⟩

/-- Modelled from the spec: elementwise multiplication, Jacobians combined
by the product rule block-by-block. -/
def ADB.mul (a b : ADB n nc nw) : ADB n nc nw :=
  ⟨fun i => a.val i * b.val i
  , fun i j => a.val i * b.jacP i j + b.val i * a.jacP i j
  , fun i w => a.val i * b.jacW i w + b.val i * a.jacW i w⟩

/-- Modelled from the spec: elementwise division, Jacobians combined by the
quotient rule block-by-block (so `d(1/f) = -df/f²` for a constant
numerator). -/
def ADB.div (a b : ADB n nc nw) : ADB n nc nw :=
  ⟨fun i => a.val i / b.val i
  , fun i j => (a.jacP i j * b.val i - a.val i * b.jacP i j) / (b.val i) ^ 2
  , fun i w => (a.jacW i w * b.val i - a.val i * b.jacW i w) / (b.val i) ^ 2⟩

/-- Modelled from the spec: elementwise multiplication by a plain (constant)
vector, as in `delta_t * (...)` or `transi * (...)`. -/
def ADB.cwiseV (v : Fin n → ℚ) (f : ADB n nc nw) : ADB n nc nw :=
  ⟨fun i => v i * f.val i
  , fun i j => v i * f.jacP i j
  , fun i w => v i * f.jacW i w⟩

/-- Modelled from the spec: left multiplication by a sparse matrix (a
linear discrete operator such as `ngrad`, `div` or `well_to_perf`), acting
on the value and on every Jacobian block. -/
def ADB.matApply (Mt : Fin k → Fin n → ℚ) (f : ADB n nc nw) : ADB k nc nw :=
  ⟨fun i => ∑ j, Mt i j * f.val j
  , fun i c => ∑ j, Mt i j * f.jacP j c
  , fun i w => ∑ j, Mt i j * f.jacW j w⟩

/-- Modelled from the spec: row subset/gather by an index map (`subset`,
and `UpwindSelector::select`, which gathers each face's donor-cell row). -/
def ADB.gather (g : Fin k → Fin n) (f : ADB n nc nw) : ADB k nc nw :=
  ⟨fun i => f.val (g i)
  , fun i c => f.jacP (g i) c
  , fun i w => f.jacW (g i) w⟩

/-- Modelled from the spec: `spdiag` — promotion of a vector to a diagonal
sparse matrix. -/
def spdiag (d : Fin n → ℚ) : Fin n → Fin n → ℚ :=
  fun i j => if i = j then d i else 0

/-! ## Pressure-dependent property adapter (from `ImpesTPFAAD.hpp`)

The adapter state after `computeSatQuant`/`computePressQuant` is its stored
row-major arrays `A_`, `dA_`, `mu_`, `dmu_`, `kr_` (one row per cell;
columns indexed by `ℕ`, matching unchecked row-major block reads).  The
fluid collaborator that fills them is external and out of scope. -/

/-- Core of `PressureDependentFluidData::fvf` after the phase-range asserts:
select column `phase * (np + 1)` of `A_` and `dA_`, inject the derivative as
`jac[0] = spdiag(dA)` with a zero well block, and return
`one_ / ADB::function(A, jac)`.  The pressure argument `p` only certifies
the two-block pattern (type-level here), as in the source asserts. -/
def fvfCore (A dA : Fin nc → ℕ → ℚ) (np phase : ℕ) : ADB nc nc nw :=
  let Acol : Fin nc → ℚ := fun c => A c (phase * (np + 1))
  let dAcol : Fin nc → ℚ := fun c => dA c (phase * (np + 1))
  ADB.div (ADB.constant fun _ => 1)
    (ADB.function Acol (spdiag dAcol) (fun _ _ => 0))

/-- `PressureDependentFluidData::fvf`: asserts `0 <= phase && phase < np_`
(the lower bound is inherent to `ℕ`); a failed assert is `none`. -/
def fvf (A dA : Fin nc → ℕ → ℚ) (np phase : ℕ) (_p : ADB nc nc nw) :
    Option (ADB nc nc nw) :=
  if phase < np then some (fvfCore A dA np phase) else none

/-- `PressureDependentFluidData::phaseRelPerm`: reads column `phase` of
`kr_`.  The source contains no phase-range assert here. -/
def phaseRelPerm (kr : Fin nc → ℕ → ℚ) (phase : ℕ) : Fin nc → ℚ :=
  fun c => kr c phase

/-- Modelled from the spec: the missing fail-fast range check of
`relativePermeability(phase)` — "Precondition for all: phase index in
`[0, numPhases)`; violating this is a contract error (fail fast)".  Stated
for comparison with `phaseRelPerm`, which performs no such check. -/
def phaseRelPermChecked (np : ℕ) (kr : Fin nc → ℕ → ℚ) (phase : ℕ) :
    Option (Fin nc → ℚ) :=
  if phase < np then some (phaseRelPerm kr phase) else none

/-- Core of `PressureDependentFluidData::phaseViscosity` after the asserts:
column `phase` of `mu_`/`dmu_`, derivative injected as a diagonal pressure
block with a zero well block. -/
def phaseViscosityCore (mu dmu : Fin nc → ℕ → ℚ) (phase : ℕ) : ADB nc nc nw :=
  ADB.function (fun c => mu c phase) (spdiag fun c => dmu c phase)
    (fun _ _ => 0)

/-- `PressureDependentFluidData::phaseViscosity`: asserts
`0 <= phase && phase < np_`; a failed assert is `none`. -/
def phaseViscosity (mu dmu : Fin nc → ℕ → ℚ) (np phase : ℕ)
    (_p : ADB nc nc nw) : Option (ADB nc nc nw) :=
  if phase < np then some (phaseViscosityCore mu dmu phase) else none

/-! ## TPFA/IMPES assembler (from `ImpesTPFAAD.hpp`) -/

/-- The inputs `ImpesTPFAAD::assemble` consumes: the timestep, the grid /
geometry collaborators (pore volumes, internal-face transmissibilities, the
discrete gradient and divergence operators), the upwind-selector
collaborator `donor` (mapping face potential differences to each face's
donor cell), the property-adapter arrays, the initial surface volumes and
source terms, the reservoir and well states, and the well topology
(perforation → cell and perforation → well maps). -/
structure AssembleIn (nc nw np nif nperf : ℕ) where
  dt : ℚ
  pv : Fin nc → ℚ
  transi : Fin nif → ℚ
  ngrad : Fin nif → Fin nc → ℚ
  divOp : Fin nc → Fin nif → ℚ
  donor : (Fin nif → ℚ) → Fin nif → Fin nc
  A : Fin nc → ℕ → ℚ
  dA : Fin nc → ℕ → ℚ
  mu : Fin nc → ℕ → ℚ
  dmu : Fin nc → ℕ → ℚ
  kr : Fin nc → ℕ → ℚ
  z0all : Fin nc → ℕ → ℚ
  p0 : Fin nc → ℚ
  bhp0 : Fin nw → ℚ
  perfCell : Fin nperf → Fin nc
  perfWell : Fin nperf → Fin nw

variable {nc nw np nif nperf : ℕ}

/-- `nkgradp = transi * (ops_.ngrad * p)` where `p` is the cell-pressure
variable of the joint pattern. -/
def nkgradpOf (inp : AssembleIn nc nw np nif nperf) : ADB nif nc nw :=
  ADB.cwiseV inp.transi (ADB.matApply inp.ngrad (ADB.variableP inp.p0))

/-- The per-face upwind donor cell, determined by the collaborator from
`nkgradp.value()`. -/
def upwOf (inp : AssembleIn nc nw np nif nperf) : Fin nif → Fin nc :=
  inp.donor (nkgradpOf inp).val

/-- `p_perfcell = subset(p, well_cells)` — computed by `assemble` but never
used (dead value in the source). -/
def p_perfcellOf (inp : AssembleIn nc nw np nif nperf) : ADB nperf nc nw :=
  ADB.gather inp.perfCell (ADB.variableP inp.p0)

/-- The wells → perforations 0/1 incidence matrix `well_to_perf`. -/
def well_to_perfOf (inp : AssembleIn nc nw np nif nperf) :
    Fin nperf → Fin nw → ℚ :=
  fun perf w => if inp.perfWell perf = w then 1 else 0

/-- `p_perfwell = well_to_perf * bhp + well_perf_dp` with
`well_perf_dp = V::Zero(...)` ("No gravity yet!") — computed by `assemble`
but never used (dead value in the source). -/
def p_perfwellOf (inp : AssembleIn nc nw np nif nperf) : ADB nperf nc nw :=
  ADB.add (ADB.matApply (well_to_perfOf inp) (ADB.variableW inp.bhp0))
    (ADB.constant fun _ => 0)

/-- The per-phase term subtracted from the running residual:
`cell_B * (pv*z0 + delta_t*(q - (ops_.div * (flux / face_B))))` with
`cell_B = fvf(phase, p)`, `mf = upwind.select(kr/mu)`,
`flux = mf * nkgradp`, `face_B = upwind.select(cell_B)`, `q = 0`.
The loop only calls it with `phase < np`, where the `fvf` and
`phaseViscosity` asserts pass, so the assert-free cores are used. -/
def assemblePhaseTerm (inp : AssembleIn nc nw np nif nperf) (phase : ℕ) :
    ADB nc nc nw :=
  let cell_B : ADB nc nc nw := fvfCore inp.A inp.dA np phase
  let kr := phaseRelPerm inp.kr phase
  let mu : ADB nc nc nw := phaseViscosityCore inp.mu inp.dmu phase
  let mf := ADB.gather (upwOf inp) (ADB.div (ADB.constant kr) mu)
  let flux := ADB.mul mf (nkgradpOf inp)
  let face_B := ADB.gather (upwOf inp) cell_B
  let z0 : Fin nc → ℚ := fun c => inp.z0all c phase
  let q : Fin nc → ℚ := fun _ => 0
  ADB.mul cell_B
    (ADB.add (ADB.constant fun c => inp.pv c * z0 c)
      (ADB.cwiseV (fun _ => inp.dt)
        (ADB.sub (ADB.constant q)
          (ADB.matApply inp.divOp (ADB.div flux face_B)))))

/-- The combined cell residual built by `ImpesTPFAAD::assemble`: starting
from `ADB::constant(pv, bpat)`, subtract each phase's term. -/
def assembleResidual (inp : AssembleIn nc nw np nif nperf) : ADB nc nc nw :=
  (List.range np).foldl
    (fun res phase => ADB.sub res (assemblePhaseTerm inp phase))
    (ADB.constant inp.pv)

/-- The residual members of an `ImpesTPFAAD` instance; `none` is
`ADB::null()`, the value both receive in the constructor's initializer
list. -/
structure ImpesTPFAADState (nc nw : ℕ) where
  cell_residual : Option (ADB nc nc nw)
  well_residual : Option (ADB nw nc nw)

/-- The `ImpesTPFAAD` constructor: both residuals start as `ADB::null()`. -/
def ImpesTPFAADState.init : ImpesTPFAADState nc nw :=
  ⟨none, none⟩

/-- `ImpesTPFAAD::assemble` as a state transformer on the instance: it
(re)computes `cell_residual_` and writes nothing else. -/
def assembleM (inp : AssembleIn nc nw np nif nperf)
    (s : ImpesTPFAADState nc nw) : ImpesTPFAADState nc nw :=
  { s with cell_residual := some (assembleResidual inp) }

/-- The reservoir-state fields `ImpesTPFAAD::solve` reads and writes. -/
structure BOState (nc : ℕ) where
  pressure : Fin nc → ℚ
  surfacevol : Fin nc → ℕ → ℚ

/-- The state-dependent assembly inputs: `assemble` reads `p0` from
`state.pressure()` and `z0all` from `state.surfacevol()`. -/
def assembleInput (fix : AssembleIn nc nw np nif nperf) (state : BOState nc) :
    AssembleIn nc nw np nif nperf :=
  { fix with p0 := state.pressure, z0all := state.surfacevol }

/-- `ImpesTPFAAD::solve`: assemble, hand the pressure-block Jacobian of the
cell residual and the residual value to the external linear solver
(abstracted as `lin`, returning its convergence flag and solution `dp`);
on convergence copy `p = p0 - dp` into the state's pressure, otherwise
`THROW` (modelled as `Except.error`) before any write, leaving the pressure
unchanged.  The property-adapter refresh calls (`computeSatQuant`,
`computePressQuant`) are external fluid evaluations whose results are the
arrays already carried by `fix`. -/
def ImpesTPFAAD.solve
    (lin : (Fin nc → Fin nc → ℚ) → (Fin nc → ℚ) → Bool × (Fin nc → ℚ))
    (fix : AssembleIn nc nw np nif nperf) (state : BOState nc)
    (s : ImpesTPFAADState nc nw) :
    Except String Unit × BOState nc × ImpesTPFAADState nc nw :=
  let inp := assembleInput fix state
  let s2 := assembleM inp s
  let r := assembleResidual inp
  let res := lin r.jacP r.val
  if res.1 = true then
    (Except.ok (), { state with pressure := fun c => state.pressure c - res.2 c }, s2)
  else
    (Except.error "ImpesTPFAAD::solve(): Linear solver convergence failure.",
      state, s2)

/-! ## Concrete instances used by witnesses and counterexamples -/

/-- A physical model (trivial state) that never reports convergence. -/
def mNever : Model Unit :=
  { prepareStep := fun _ _ => ()
  , assemble := fun _ _ => ()
  , computeResidualNorms := fun _ => [1]
  , getConvergence := fun _ _ _ => false
  , sizeNonLinear := fun _ => 1
  , solveJacobianSystem := fun _ => ((), [0])
  , linearIterationsLastSolve := fun _ => 2
  , updateState := fun _ _ => ()
  , afterStep := fun _ _ => ()
  , numPhases := fun _ => 1 }

/-- A physical model (trivial state) that always reports convergence. -/
def mAlways : Model Unit :=
  { mNever with getConvergence := fun _ _ _ => true }

/-- Concrete solver parameters: defaults with `max_iter = 3`. -/
def pTest : SolverParameters :=
  { SolverParameters.reset with max_iter := 3 }

/-- Concrete pre-call counter values of a `NewtonSolver` instance. -/
def solTest : NewtonSolverState :=
  ⟨7, 9, 4, 6⟩

/-- Concrete stored `A_` array (single cell, single phase): `B = 2`. -/
def cexA : Fin 1 → ℕ → ℚ := fun _ _ => 2

/-- Concrete stored `dA_` array: `dB/dp = 3`. -/
def cexdA : Fin 1 → ℕ → ℚ := fun _ _ => 3

/-- Concrete stored `mu_` array. -/
def cexMu : Fin 1 → ℕ → ℚ := fun _ _ => 1

/-- Concrete stored `dmu_` array. -/
def cexdMu : Fin 1 → ℕ → ℚ := fun _ _ => 0

/-- Concrete stored `kr_` array. -/
def cexKr : Fin 1 → ℕ → ℚ := fun _ _ => 7

/-- A concrete pressure AD quantity with the two-block pattern. -/
def cexP : ADB 1 1 1 :=
  ADB.variableP (fun _ => 5)

/-- The value `fvf` returns at the concrete single-cell data. -/
def cexFvfRes : ADB 1 1 1 :=
  fvfCore cexA cexdA 1 0

/-- Concrete assembler fixture: one cell, one well with no perforations, no
internal faces, one phase. -/
def cexFix : AssembleIn 1 1 1 0 0 :=
  { dt := 1
  , pv := fun _ => 1
  , transi := Fin.elim0
  , ngrad := Fin.elim0
  , divOp := fun _ j => j.elim0
  , donor := fun _ i => i.elim0
  , A := cexA
  , dA := cexdA
  , mu := cexMu
  , dmu := cexdMu
  , kr := cexKr
  , z0all := fun _ _ => 0
  , p0 := fun _ => 10
  , bhp0 := fun _ => 0
  , perfCell := Fin.elim0
  , perfWell := Fin.elim0 }

/-- A backend linear solver that always converges with solution `1`. -/
def cexLin : (Fin 1 → Fin 1 → ℚ) → (Fin 1 → ℚ) → Bool × (Fin 1 → ℚ) :=
  fun _ _ => (true, fun _ => 1)

/-- A concrete reservoir state. -/
def cexState : BOState 1 :=
  { pressure := fun _ => 10, surfacevol := fun _ _ => 0 }

/-- The property "the well-BHP Jacobian block is identically zero". -/
def WZero (f : ADB n nc nw) : Prop :=
  ∀ i w, f.jacW i w = 0

/-! ## Helper lemmas -/

theorem newtonIterate_zero (m : Model σ) (p : SolverParameters) (dt : ℚ)
    (s : LoopSt σ) : newtonIterate m p dt 0 s = s := rfl

theorem newtonIterate_succ (m : Model σ) (p : SolverParameters) (dt : ℚ)
    (f : ℕ) (s : LoopSt σ) :
    newtonIterate m p dt (f + 1) s =
      if newtonGuard p s then newtonIterate m p dt f (newtonLoopBody m p dt s)
      else s := rfl

theorem newtonIterate_stop (m : Model σ) (p : SolverParameters) (dt : ℚ)
    (s : LoopSt σ) (h : newtonGuard p s = false) (fuel : ℕ) :
    newtonIterate m p dt fuel s = s := by
  cases fuel with
  | zero => rfl
  | succ f => rw [newtonIterate_succ, h]; simp

/-- Projections of one loop-body execution. -/
theorem newtonLoopBody_proj (m : Model σ) (p : SolverParameters) (dt : ℚ)
    (s : LoopSt σ) :
    (newtonLoopBody m p dt s).iteration = s.iteration + 1 ∧
    (newtonLoopBody m p dt s).nSolves = s.nSolves + 1 ∧
    (newtonLoopBody m p dt s).nUpdates = s.nUpdates + 1 ∧
    (newtonLoopBody m p dt s).nAssembles = s.nAssembles + 1 ∧
    (newtonLoopBody m p dt s).converged =
      m.getConvergence (newtonLoopBody m p dt s).mstate dt (s.iteration + 1) :=
  ⟨rfl, rfl, rfl, rfl, rfl⟩

/-- Running the main loop under a model that never reports convergence:
with fuel exactly covering the remaining iterations up to `max_iter`, the
loop exits unconverged at `iteration = max_iter`, having run the body once
per remaining iteration. -/
theorem newtonIterate_never (m : Model σ) (p : SolverParameters) (dt : ℚ)
    (hconv : m.getConvergence = fun _ _ _ => false) :
    ∀ (fuel : ℕ) (s : LoopSt σ), s.converged = false →
      s.iteration + fuel = p.max_iter →
      (newtonIterate m p dt fuel s).converged = false ∧
      (newtonIterate m p dt fuel s).iteration = p.max_iter ∧
      (newtonIterate m p dt fuel s).nSolves = s.nSolves + fuel ∧
      (newtonIterate m p dt fuel s).nUpdates = s.nUpdates + fuel ∧
      (newtonIterate m p dt fuel s).nAssembles = s.nAssembles + fuel := by
  intro fuel
  induction fuel with
  | zero =>
      intro s hc hit
      rw [newtonIterate_zero]
      exact ⟨hc, by omega, by omega, by omega, by omega⟩
  | succ f ih =>
      intro s hc hit
      have hg : newtonGuard p s = true := by
        simp only [newtonGuard, hc, Bool.not_false, Bool.true_and,
          Bool.or_eq_true, decide_eq_true_eq]
        left; omega
      rw [newtonIterate_succ, hg, if_pos rfl]
      obtain ⟨b1, b2, b3, b4, b5⟩ := newtonLoopBody_proj m p dt s
      have hbc : (newtonLoopBody m p dt s).converged = false := by
        rw [b5, hconv]
      obtain ⟨c1, c2, c3, c4, c5⟩ := ih (newtonLoopBody m p dt s) hbc (by omega)
      refine ⟨c1, c2, ?_, ?_, ?_⟩ <;> omega

theorem stepFinal_fail (sol : NewtonSolverState) (m : Model σ) (dt : ℚ)
    (fin : LoopSt σ) (h : fin.converged = false) :
    stepFinal sol m dt fin =
      { retval := -1, solver := sol, mstate := fin.mstate
      , exitIteration := fin.iteration, nSolves := fin.nSolves
      , nUpdates := fin.nUpdates, nAssembles := fin.nAssembles
      , nAfterStep := 0 } := by
  rw [stepFinal, if_pos h]

theorem stepFinal_success (sol : NewtonSolverState) (m : Model σ) (dt : ℚ)
    (fin : LoopSt σ) (h : fin.converged = true) :
    stepFinal sol m dt fin =
      { retval := (fin.linearIterations : ℤ)
      , solver :=
        { newtonIterations := sol.newtonIterations + fin.iteration
        , linearIterations := sol.linearIterations + fin.linearIterations
        , newtonIterationsLast := fin.iteration
        , linearIterationsLast := fin.linearIterations }
      , mstate := m.afterStep dt fin.mstate
      , exitIteration := fin.iteration, nSolves := fin.nSolves
      , nUpdates := fin.nUpdates, nAssembles := fin.nAssembles
      , nAfterStep := 1 } := by
  rw [stepFinal, h]; simp

/-- Projections of the pre-loop initialization. -/
theorem stepInit_proj (m : Model σ) (dt : ℚ) (s0 : σ) :
    (stepInit m dt s0).iteration = 0 ∧
    (stepInit m dt s0).nSolves = 0 ∧
    (stepInit m dt s0).nUpdates = 0 ∧
    (stepInit m dt s0).nAssembles = 1 ∧
    (stepInit m dt s0).converged =
      m.getConvergence (stepInit m dt s0).mstate dt 0 :=
  ⟨rfl, rfl, rfl, rfl, rfl⟩

/-! ## Claims -/

/-- C1: For every model that never reports convergence (and with
`min_iter <= max_iter`), `NewtonSolver::step` returns the failure sentinel
`-1` exactly when `iteration == max_iter`, having issued exactly `max_iter`
linear solves and `max_iter + 1` residual assemblies, counting the initial
assembly before the loop. -/
theorem newtonStep_neverConverge_C1 {σ : Type} (m : Model σ)
    (p : SolverParameters) (sol : NewtonSolverState) (dt : ℚ) (s0 : σ)
    (hconv : m.getConvergence = fun _ _ _ => false)
    (hmm : p.min_iter ≤ p.max_iter) :
    (NewtonSolver.step p sol m dt s0).retval = -1 ∧
    (NewtonSolver.step p sol m dt s0).exitIteration = p.max_iter ∧
    (NewtonSolver.step p sol m dt s0).nSolves = p.max_iter ∧
    (NewtonSolver.step p sol m dt s0).nAssembles = p.max_iter + 1 := by
  have hfuel : max p.max_iter p.min_iter = p.max_iter := Nat.max_eq_left hmm
  obtain ⟨i1, i2, i3, i4, i5⟩ := stepInit_proj m dt s0
  have hic : (stepInit m dt s0).converged = false := by rw [i5, hconv]
  obtain ⟨c1, c2, c3, c4, c5⟩ :=
    newtonIterate_never m p dt hconv p.max_iter (stepInit m dt s0) hic
      (by omega)
  unfold NewtonSolver.step
  rw [hfuel, stepFinal_fail _ _ _ _ c1]
  exact ⟨rfl, c2, by dsimp only; omega, by dsimp only; omega⟩

/-- Witness for C1 at a concrete never-converging model with
`max_iter = 3`, `min_iter = 1`. -/
theorem newtonStep_neverConverge_C1_witness :
    (mNever.getConvergence = fun _ _ _ => false) ∧
    pTest.min_iter ≤ pTest.max_iter ∧
    ((NewtonSolver.step pTest solTest mNever 0 ()).retval = -1 ∧
     (NewtonSolver.step pTest solTest mNever 0 ()).exitIteration = pTest.max_iter ∧
     (NewtonSolver.step pTest solTest mNever 0 ()).nSolves = pTest.max_iter ∧
     (NewtonSolver.step pTest solTest mNever 0 ()).nAssembles = pTest.max_iter + 1) :=
  ⟨rfl, by decide,
    newtonStep_neverConverge_C1 mNever pTest solTest 0 () rfl (by decide)⟩

/-- C7: For every model that reports convergence from iteration 0 on, a
`NewtonSolver` with `min_iter = 1` still performs exactly one additional
Newton iteration — one linear solve, one update application, one
reassembly — before returning success. -/
theorem newtonStep_minIter_C7 {σ : Type} (m : Model σ) (p : SolverParameters)
    (sol : NewtonSolverState) (dt : ℚ) (s0 : σ)
    (hconv : m.getConvergence = fun _ _ _ => true)
    (hmin : p.min_iter = 1) :
    0 ≤ (NewtonSolver.step p sol m dt s0).retval ∧
    (NewtonSolver.step p sol m dt s0).retval ≠ -1 ∧
    (NewtonSolver.step p sol m dt s0).exitIteration = 1 ∧
    (NewtonSolver.step p sol m dt s0).nSolves = 1 ∧
    (NewtonSolver.step p sol m dt s0).nUpdates = 1 ∧
    (NewtonSolver.step p sol m dt s0).nAssembles = 2 ∧
    (NewtonSolver.step p sol m dt s0).nAfterStep = 1 := by
  obtain ⟨i1, i2, i3, i4, i5⟩ := stepInit_proj m dt s0
  have hic : (stepInit m dt s0).converged = true := by rw [i5, hconv]
  have hg : newtonGuard p (stepInit m dt s0) = true := by
    simp only [newtonGuard, hic, hmin, i1, Bool.not_true, Bool.false_and,
      Bool.false_or, gt_iff_lt, decide_eq_true_eq]
    omega
  obtain ⟨b1, b2, b3, b4, b5⟩ := newtonLoopBody_proj m p dt (stepInit m dt s0)
  have hs1c : (newtonLoopBody m p dt (stepInit m dt s0)).converged = true := by
    rw [b5, hconv]
  have hs1it : (newtonLoopBody m p dt (stepInit m dt s0)).iteration = 1 := by
    omega
  have hg1 : newtonGuard p (newtonLoopBody m p dt (stepInit m dt s0)) = false := by
    simp only [newtonGuard, hs1c, hs1it, hmin, Bool.not_true, Bool.false_and,
      Bool.false_or, gt_iff_lt, decide_eq_false_iff_not]
    omega
  have h1 : 1 ≤ max p.max_iter p.min_iter := by
    have := Nat.le_max_right p.max_iter p.min_iter
    omega
  obtain ⟨f, hf⟩ : ∃ f, max p.max_iter p.min_iter = f + 1 :=
    ⟨max p.max_iter p.min_iter - 1, by omega⟩
  unfold NewtonSolver.step
  rw [hf, newtonIterate_succ, hg, if_pos rfl,
    newtonIterate_stop _ _ _ _ hg1, stepFinal_success _ _ _ _ hs1c]
  refine ⟨?_, ?_, hs1it, by dsimp only; omega, by dsimp only; omega,
    by dsimp only; omega, rfl⟩
  · exact Int.natCast_nonneg _
  · intro h
    dsimp only at h
    omega

/-- Witness for C7 at a concrete always-converged model with
`min_iter = 1`. -/
theorem newtonStep_minIter_C7_witness :
    (mAlways.getConvergence = fun _ _ _ => true) ∧
    pTest.min_iter = 1 ∧
    (0 ≤ (NewtonSolver.step pTest solTest mAlways 0 ()).retval ∧
     (NewtonSolver.step pTest solTest mAlways 0 ()).retval ≠ -1 ∧
     (NewtonSolver.step pTest solTest mAlways 0 ()).exitIteration = 1 ∧
     (NewtonSolver.step pTest solTest mAlways 0 ()).nSolves = 1 ∧
     (NewtonSolver.step pTest solTest mAlways 0 ()).nUpdates = 1 ∧
     (NewtonSolver.step pTest solTest mAlways 0 ()).nAssembles = 2 ∧
     (NewtonSolver.step pTest solTest mAlways 0 ()).nAfterStep = 1) :=
  ⟨rfl, rfl, newtonStep_minIter_C7 mAlways pTest solTest 0 () rfl rfl⟩

/-- C10: Whenever `NewtonSolver::step` returns the failure sentinel, the
cumulative and last-step Newton- and linear-iteration counters are left
unchanged from their values before the call, and the model's `afterStep`
post-processing is not invoked. -/
theorem newtonStep_failureFrame_C10 {σ : Type} (m : Model σ)
    (p : SolverParameters) (sol : NewtonSolverState) (dt : ℚ) (s0 : σ)
    (hfail : (NewtonSolver.step p sol m dt s0).retval = -1) :
    (NewtonSolver.step p sol m dt s0).solver = sol ∧
    (NewtonSolver.step p sol m dt s0).nAfterStep = 0 := by
  unfold NewtonSolver.step at hfail ⊢
  cases hc : (newtonIterate m p dt (max p.max_iter p.min_iter)
      (stepInit m dt s0)).converged with
  | false => rw [stepFinal_fail _ _ _ _ hc]; exact ⟨rfl, rfl⟩
  | true =>
      rw [stepFinal_success _ _ _ _ hc] at hfail
      dsimp only at hfail
      omega

/-- Witness for C10: a concrete failing step leaves the concrete counters
`solTest` untouched and never calls `afterStep`. -/
theorem newtonStep_failureFrame_C10_witness :
    ((NewtonSolver.step pTest solTest mNever 0 ()).retval = -1) ∧
    ((NewtonSolver.step pTest solTest mNever 0 ()).solver = solTest ∧
     (NewtonSolver.step pTest solTest mNever 0 ()).nAfterStep = 0) :=
  ⟨by decide, newtonStep_failureFrame_C10 mNever pTest solTest 0 () (by decide)⟩

/-- C2: Oscillation detection is inactive for the first two iterations
(`it < 2`); for `it >= 2` the step is reported oscillating exactly when
more than one phase `p` satisfies `d1 = |F0[p]-F2[p]|/F0[p] < tol` and
`tol < d2 = |F0[p]-F1[p]|/F0[p]`, where `F0, F1, F2` are the current,
previous, and two-iterations-ago per-phase residual norms (assumed
positive, as norms are). -/
theorem detectOsc_spec_C2 (np it : ℕ) (history : List (List ℚ)) (tol : ℚ)
    (hpos : ((List.range np).all fun p =>
      decide (0 < (history.getD it []).getD p 0)) = true) :
    (it < 2 → (detectNewtonOscillations np history it tol).1 = false) ∧
    (2 ≤ it →
      ((detectNewtonOscillations np history it tol).1 = true ↔
        1 < (List.range np).countP
          (oscFlagSpec (history.getD it []) (history.getD (it - 1) [])
            (history.getD (it - 2) []) tol))) := by
  constructor
  · intro h
    rw [detectNewtonOscillations, if_pos h]
  · intro h
    rw [detectNewtonOscillations, if_neg (by omega)]
    simp only [gt_iff_lt, decide_eq_true_eq]
    have hcong : ∀ p ∈ List.range np,
        ((decide (|((history.getD it []).getD p 0 - (history.getD (it - 2) []).getD p 0) /
            (history.getD it []).getD p 0| < tol) &&
          decide (tol < |((history.getD it []).getD p 0 - (history.getD (it - 1) []).getD p 0) /
            (history.getD it []).getD p 0|)) = true ↔
         oscFlagSpec (history.getD it []) (history.getD (it - 1) [])
           (history.getD (it - 2) []) tol p = true) := by
      intro p hp
      have hF0 : 0 < (history.getD it []).getD p 0 := by
        rw [List.all_eq_true] at hpos
        exact of_decide_eq_true (hpos p hp)
      rw [oscFlagSpec, abs_div, abs_div, abs_of_pos hF0]
    rw [List.countP_congr hcong]

/-- Witness for C2 at a concrete one-phase, three-snapshot history with all
current norms positive. -/
theorem detectOsc_spec_C2_witness :
    (((List.range 1).all fun p =>
      decide (0 < (([[1], [1], [1]] : List (List ℚ)).getD 2 []).getD p 0)) = true) ∧
    ((2 < 2 → (detectNewtonOscillations 1 [[1], [1], [1]] 2 (1/2)).1 = false) ∧
     (2 ≤ 2 →
       ((detectNewtonOscillations 1 [[1], [1], [1]] 2 (1/2)).1 = true ↔
         1 < (List.range 1).countP
           (oscFlagSpec (([[1], [1], [1]] : List (List ℚ)).getD 2 [])
             (([[1], [1], [1]] : List (List ℚ)).getD (2 - 1) [])
             (([[1], [1], [1]] : List (List ℚ)).getD (2 - 2) []) (1/2))))) :=
  ⟨by decide, detectOsc_spec_C2 1 2 [[1], [1], [1]] (1/2) (by decide)⟩

/-- C3 counterexample: on the 3-snapshot single-phase history
`F2=[1.0], F1=[0.5], F0=[0.9]` with tolerance `0.2`, the claim says the
step is reported oscillating; the code reports it NOT oscillating, because
step-level oscillation requires strictly more than one flagged phase and a
single-phase run can flag at most one. -/
theorem detectOsc_singlePhase_C3_cex :
    (detectNewtonOscillations 1 [[1], [1/2], [9/10]] 2 (1/5)).1 = false := by
  decide

/-- C3 amended: with a single active phase on the history
`F2=[1.0], F1=[0.5], F0=[0.9]` and tolerance `0.2`, the phase is
individually flagged oscillating (flagged count = 1), but the step as a
whole is reported NOT oscillating (more than one flagged phase is
required); on the monotonically decreasing history
`F2=[1.0], F1=[0.9], F0=[0.8]` no phase is flagged and the step is
likewise reported not oscillating. -/
theorem detectOsc_singlePhase_C3_amended :
    (List.range 1).countP (oscFlagSpec [9/10] [1/2] [1] (1/5)) = 1 ∧
    (detectNewtonOscillations 1 [[1], [1/2], [9/10]] 2 (1/5)).1 = false ∧
    (List.range 1).countP (oscFlagSpec [4/5] [9/10] [1] (1/5)) = 0 ∧
    (detectNewtonOscillations 1 [[1], [9/10], [4/5]] 2 (1/5)).1 = false := by
  decide

/-- C6 counterexample: with `omega = 1.0` (DAMPEN), the claim says the
stored previous-update state `dxOld` is not mutated; the code assigns
`dxOld = dx` before the early return, so `dxOld = [5]` becomes `[1]`. -/
theorem stabilizeNewton_C6_cex :
    (stabilizeNewton [1] [5] 1 RelaxType.DAMPEN).2 ≠ [5] := by
  decide

/-- C6 amended: DAMPEN relaxation with `omega = 0.5` halves every component
of the update vector; with `omega = 1.0` the update `dx` is returned
unchanged — but in both cases the stored previous-update state `dxOld` is
overwritten with the incoming `dx` (the assignment precedes the
`omega == 1` early return). -/
theorem stabilizeNewton_C6_amended (dx dxOld : List ℚ) :
    (stabilizeNewton dx dxOld (1/2) RelaxType.DAMPEN).1 =
      dx.map (fun a => a * (1/2)) ∧
    (stabilizeNewton dx dxOld 1 RelaxType.DAMPEN).1 = dx ∧
    (stabilizeNewton dx dxOld (1/2) RelaxType.DAMPEN).2 = dx ∧
    (stabilizeNewton dx dxOld 1 RelaxType.DAMPEN).2 = dx := by
  have hne : ((1 : ℚ)/2) ≠ 1 := by norm_num
  refine ⟨?_, ?_, ?_, ?_⟩ <;> simp [stabilizeNewton, hne]

theorem WZero_constant (v : Fin n → ℚ) :
    WZero (ADB.constant v : ADB n nc nw) :=
  fun _ _ => rfl

theorem WZero_variableP (v : Fin nc → ℚ) :
    WZero (ADB.variableP v : ADB nc nc nw) :=
  fun _ _ => rfl

theorem WZero_function (v : Fin n → ℚ) (jp : Fin n → Fin nc → ℚ) :
    WZero (ADB.function v jp (fun _ _ => 0) : ADB n nc nw) :=
  fun _ _ => rfl

theorem WZero_add {a b : ADB n nc nw} (ha : WZero a) (hb : WZero b) :
    WZero (ADB.add a b) := by
  intro i w
  show a.jacW i w + b.jacW i w = 0
  rw [ha, hb, add_zero]

theorem WZero_sub {a b : ADB n nc nw} (ha : WZero a) (hb : WZero b) :
    WZero (ADB.sub a b) := by
  intro i w
  show a.jacW i w - b.jacW i w = 0
  rw [ha, hb, sub_zero]

theorem WZero_mul {a b : ADB n nc nw} (ha : WZero a) (hb : WZero b) :
    WZero (ADB.mul a b) := by
  intro i w
  show a.val i * b.jacW i w + b.val i * a.jacW i w = 0
  rw [ha, hb, mul_zero, mul_zero, add_zero]

theorem WZero_div {a b : ADB n nc nw} (ha : WZero a) (hb : WZero b) :
    WZero (ADB.div a b) := by
  intro i w
  show (a.jacW i w * b.val i - a.val i * b.jacW i w) / (b.val i) ^ 2 = 0
  rw [ha, hb, mul_zero, zero_mul, sub_zero, zero_div]

theorem WZero_cwiseV (v : Fin n → ℚ) {f : ADB n nc nw} (hf : WZero f) :
    WZero (ADB.cwiseV v f) := by
  intro i w
  show v i * f.jacW i w = 0
  rw [hf, mul_zero]

theorem WZero_matApply (Mt : Fin k → Fin n → ℚ) {f : ADB n nc nw}
    (hf : WZero f) : WZero (ADB.matApply Mt f) := by
  intro i w
  show (∑ j, Mt i j * f.jacW j w) = 0
  refine Finset.sum_eq_zero fun j _ => ?_
  rw [hf, mul_zero]

theorem WZero_gather (g : Fin k → Fin n) {f : ADB n nc nw} (hf : WZero f) :
    WZero (ADB.gather g f) :=
  fun i w => hf (g i) w

theorem WZero_fvfCore (A dA : Fin nc → ℕ → ℚ) (np phase : ℕ) :
    WZero (fvfCore A dA np phase : ADB nc nc nw) :=
  WZero_div (WZero_constant _) (WZero_function _ _)

theorem WZero_phaseViscosityCore (mu dmu : Fin nc → ℕ → ℚ) (phase : ℕ) :
    WZero (phaseViscosityCore mu dmu phase : ADB nc nc nw) :=
  WZero_function _ _

theorem WZero_nkgradpOf (inp : AssembleIn nc nw np nif nperf) :
    WZero (nkgradpOf inp) :=
  WZero_cwiseV _ (WZero_matApply _ (WZero_variableP _))

theorem WZero_assemblePhaseTerm (inp : AssembleIn nc nw np nif nperf)
    (phase : ℕ) : WZero (assemblePhaseTerm inp phase) := by
  unfold assemblePhaseTerm
  exact WZero_mul (WZero_fvfCore _ _ _ _)
    (WZero_add (WZero_constant _)
      (WZero_cwiseV _
        (WZero_sub (WZero_constant _)
          (WZero_matApply _
            (WZero_div
              (WZero_mul
                (WZero_gather _ (WZero_div (WZero_constant _)
                  (WZero_phaseViscosityCore _ _ _)))
                (WZero_nkgradpOf inp))
              (WZero_gather _ (WZero_fvfCore _ _ _ _)))))))

theorem WZero_foldl (l : List α) (g : ADB n nc nw → α → ADB n nc nw)
    (init : ADB n nc nw) (h0 : WZero init)
    (hstep : ∀ acc x, WZero acc → WZero (g acc x)) :
    WZero (l.foldl g init) := by
  induction l generalizing init with
  | nil => exact h0
  | cons x xs ih => exact ih (g init x) (hstep init x h0)

theorem WZero_assembleResidual (inp : AssembleIn nc nw np nif nperf) :
    WZero (assembleResidual inp) := by
  unfold assembleResidual
  exact WZero_foldl _ _ _ (WZero_constant _)
    (fun acc phase hacc => WZero_sub hacc (WZero_assemblePhaseTerm inp phase))

/-- C8: For every call to `ImpesTPFAAD::assemble`, the Jacobian block of
the assembled cell residual with respect to the well-BHP block is
identically zero — the solved pressure system is independent of the well
bottom-hole pressures — and the well residual quantity is never populated:
it remains the null ADQ set at construction. -/
theorem impesAssemble_wellBlock_C8 (inp : AssembleIn nc nw np nif nperf)
    (s : ImpesTPFAADState nc nw) :
    ((assembleResidual inp).jacW = fun _ _ => 0) ∧
    (assembleM inp s).well_residual = s.well_residual ∧
    (assembleM inp (ImpesTPFAADState.init)).well_residual = none := by
  refine ⟨?_, rfl, rfl⟩
  funext i w
  exact WZero_assembleResidual inp i w

/-- C4: `ImpesTPFAAD::solve`, after its single linearized solve: if the
backend linear solver reports convergence, it updates every cell pressure
as `p_new = p_old - dp` (where `dp` is the backend's solution of the
pressure-block Jacobian system against the residual value) and returns
normally; if the backend reports non-convergence, it raises a fatal error,
performs no retry or fallback, and leaves the state's pressure unchanged
(the whole input state is returned untouched alongside the error). -/
theorem impesSolve_C4
    (lin : (Fin nc → Fin nc → ℚ) → (Fin nc → ℚ) → Bool × (Fin nc → ℚ))
    (fix : AssembleIn nc nw np nif nperf) (state : BOState nc)
    (s : ImpesTPFAADState nc nw) (b : Bool) (dp : Fin nc → ℚ)
    (hres : lin (assembleResidual (assembleInput fix state)).jacP
        (assembleResidual (assembleInput fix state)).val = (b, dp)) :
    (b = true →
      ImpesTPFAAD.solve lin fix state s =
        (Except.ok (),
          { state with pressure := fun c => state.pressure c - dp c },
          assembleM (assembleInput fix state) s)) ∧
    (b = false →
      ImpesTPFAAD.solve lin fix state s =
        (Except.error "ImpesTPFAAD::solve(): Linear solver convergence failure.",
          state, assembleM (assembleInput fix state) s)) := by
  constructor <;> intro hb <;> subst hb <;>
    simp [ImpesTPFAAD.solve, hres, assembleM]

/-- Witness for C4 at a concrete single-cell configuration whose backend
converges with solution `1`: the returned pressure is `p0 - 1` per cell. -/
theorem impesSolve_C4_witness :
    (cexLin (assembleResidual (assembleInput cexFix cexState)).jacP
        (assembleResidual (assembleInput cexFix cexState)).val =
      (true, fun _ => 1)) ∧
    (ImpesTPFAAD.solve cexLin cexFix cexState
        (ImpesTPFAADState.init : ImpesTPFAADState 1 1) =
      (Except.ok (),
        { cexState with
            pressure := fun c => cexState.pressure c - (fun _ => (1 : ℚ)) c },
        assembleM (assembleInput cexFix cexState)
          (ImpesTPFAADState.init : ImpesTPFAADState 1 1))) :=
  ⟨rfl,
    (impesSolve_C4 cexLin cexFix cexState ImpesTPFAADState.init true
      (fun _ => 1) rfl).1 rfl⟩

/-- C5 counterexample: at the single-cell, single-phase data `B = 2`,
`dB/dp = 3`, the claim predicts that the pressure-block Jacobian of the
returned quantity is `diag(dB/dp)`, i.e. entry `3`; the code returns
`one_ / ADB::function(B, diag(dB/dp))`, whose division applies the quotient
rule, giving entry `-(dB/dp)/B² = -3/4 ≠ 3`. -/
theorem fvf_C5_cex :
    fvf cexA cexdA 1 0 cexP = some cexFvfRes ∧
    cexFvfRes.val 0 = 1/2 ∧
    cexFvfRes.jacW = (fun _ _ => 0) ∧
    cexFvfRes.jacP 0 0 = -(3/4) ∧
    spdiag (fun c => cexdA c (0 * (1 + 1))) 0 0 = 3 ∧
    cexFvfRes.jacP ≠ spdiag (fun c => cexdA c (0 * (1 + 1))) := by
  refine ⟨rfl, by decide, by decide, by decide, by decide, ?_⟩
  intro h
  have h00 := congrFun (congrFun h 0) 0
  rw [show cexFvfRes.jacP 0 0 = -(3/4) by decide] at h00
  rw [show spdiag (fun c => cexdA c (0 * (1 + 1))) 0 0 = 3 by decide] at h00
  norm_num at h00

/-- C5 amended: for every in-range phase and pressure ADQ with the
two-block pattern, `fvf` returns `1/B` built by dividing one by the
injected quantity `B` (whose pressure-block Jacobian is `diag(dB/dp)`, the
stored per-cell derivative promoted to a diagonal matrix); consequently the
returned AD quantity's pressure-block Jacobian is the quotient-rule
diagonal matrix with entries `-(dB/dp)/B²`, and its Jacobian against every
other block is zero. -/
theorem fvf_C5_amended (nc nw np phase : ℕ) (A dA : Fin nc → ℕ → ℚ)
    (p : ADB nc nc nw) (h : phase < np) :
    fvf A dA np phase p = some (fvfCore A dA np phase) ∧
    (fvfCore A dA np phase : ADB nc nc nw).val =
      (fun c => 1 / A c (phase * (np + 1))) ∧
    (fvfCore A dA np phase : ADB nc nc nw).jacP =
      (fun c c2 => if c = c2 then
        -(dA c (phase * (np + 1))) / (A c (phase * (np + 1))) ^ 2 else 0) ∧
    (fvfCore A dA np phase : ADB nc nc nw).jacW = (fun _ _ => 0) := by
  refine ⟨by rw [fvf, if_pos h], rfl, ?_, ?_⟩
  · funext c c2
    by_cases hc : c = c2
    · subst hc
      show ((0 : ℚ) * _ - 1 * (if c = c then dA c (phase * (np + 1)) else 0)) /
          (A c (phase * (np + 1))) ^ 2 = _
      rw [if_pos rfl, if_pos rfl]
      ring
    · show ((0 : ℚ) * _ - 1 * (if c = c2 then dA c (phase * (np + 1)) else 0)) /
          (A c (phase * (np + 1))) ^ 2 = _
      rw [if_neg hc, if_neg hc]
      ring
  · funext i w
    show ((0 : ℚ) * A i (phase * (np + 1)) - 1 * 0) /
      (A i (phase * (np + 1))) ^ 2 = 0
    simp

/-- Witness for C5 (amended) at the concrete single-cell data. -/
theorem fvf_C5_amended_witness :
    (0 < 1) ∧
    (fvf cexA cexdA 1 0 cexP = some (fvfCore cexA cexdA 1 0) ∧
     (fvfCore cexA cexdA 1 0 : ADB 1 1 1).val =
       (fun c => 1 / cexA c (0 * (1 + 1))) ∧
     (fvfCore cexA cexdA 1 0 : ADB 1 1 1).jacP =
       (fun c c2 => if c = c2 then
         -(cexdA c (0 * (1 + 1))) / (cexA c (0 * (1 + 1))) ^ 2 else 0) ∧
     (fvfCore cexA cexdA 1 0 : ADB 1 1 1).jacW = (fun _ _ => 0)) :=
  ⟨by decide, fvf_C5_amended 1 1 1 0 cexA cexdA cexP (by decide)⟩

/-- C9 counterexample: `phaseRelPerm` performs no fail-fast range check —
called with the out-of-range phase index `1` (of `numPhases = 1`) it
returns a plain value, where the claimed contract (here
`phaseRelPermChecked`, modelled on the spec's precondition) demands a
failure; `fvf` and `phaseViscosity` do assert and fail. -/
theorem propAdapter_C9_cex :
    phaseRelPermChecked 1 cexKr 1 = (none : Option (Fin 1 → ℚ)) ∧
    some (phaseRelPerm cexKr 1) ≠ phaseRelPermChecked 1 cexKr 1 ∧
    phaseRelPerm cexKr 1 = (fun _ => 7) ∧
    fvf cexA cexdA 1 1 cexP = none ∧
    phaseViscosity cexMu cexdMu 1 1 cexP = none := by
  refine ⟨rfl, ?_, rfl, rfl, rfl⟩
  rw [show phaseRelPermChecked 1 cexKr 1 = (none : Option (Fin 1 → ℚ))
    from rfl]
  exact Option.some_ne_none _

/-- C9 amended: `fvf` and `phaseViscosity` fail fast (assert) exactly when
the phase index is outside `[0, numPhases)` and succeed when it is in
range; `phaseRelPerm` performs no range check at all and returns the raw
stored column for any index. -/
theorem propAdapter_C9_amended (nc nw np phase : ℕ)
    (A dA mu dmu kr : Fin nc → ℕ → ℚ) (p : ADB nc nc nw) :
    ((fvf A dA np phase p).isSome = true ↔ phase < np) ∧
    ((phaseViscosity mu dmu np phase p).isSome = true ↔ phase < np) ∧
    phaseRelPerm kr phase = (fun c => kr c phase) := by
  refine ⟨?_, ?_, rfl⟩
  · rw [fvf]
    by_cases h : phase < np
    · rw [if_pos h]; simp [h]
    · rw [if_neg h]; simp [h]
  · rw [phaseViscosity]
    by_cases h : phase < np
    · rw [if_pos h]; simp [h]
    · rw [if_neg h]; simp [h]
